import Mathlib

/-!
Shallow embedding of `src/Engine/FormulaEvaluator.ts` (class `FormulaEvaluator`).

The evaluator consumes a tokenized formula (`string[]`), resolves cell
references through a `SheetMemory`, and stores a numeric result together with
an error string.  JavaScript numbers are modelled by `JSNum`: an exact
rational payload plus the IEEE special values `Infinity`, `-Infinity` and
`NaN` (IEEE rounding itself is out of scope; every value exercised by the
theorems below is a small integer, where double arithmetic is exact).
Mutation of `this._errorMessage` / `this._result` is modelled by explicit
state passing (`EvalState`), and thrown JavaScript exceptions by `Except`.
`EvalState` additionally carries ghost instrumentation fields (`divHit`,
`deficient`, `cellErr`) that record which events occurred during a run; they
influence no branch of the embedded code.
-/

/-- Fuel-driven Euclidean gcd.  Structurally recursive so that the kernel can
evaluate it (used instead of `Nat.gcd`, whose well-founded recursion does not
reduce definitionally).  `gcdFuel (m+1) m n = Nat.gcd m n`. -/
def gcdFuel : Nat → Nat → Nat → Nat
  | _, 0, n => n
  | 0, _ + 1, n => n
  | fuel + 1, m + 1, n => gcdFuel fuel (n % (m + 1)) (m + 1)

/-- Executable gcd with enough fuel for the Euclidean recursion. -/
def myGcd (m n : Nat) : Nat := gcdFuel (m + 1) m n

/-- Exact fraction: numerator and (intended positive) denominator.  All
constructors below normalize, so equality of produced values is structural. -/
structure Frac where
  num : Int
  den : Nat
deriving DecidableEq

/-- Normalize a numerator/denominator pair (denominator a positive natural). -/
def Frac.norm (n : Int) (d : Nat) : Frac :=
  if d = 0 then ⟨0, 1⟩
  else
    let g := myGcd n.natAbs d
    ⟨n / (g : Int), d / g⟩

/-- Normalize a pair with a possibly negative denominator. -/
def Frac.normInt (n m : Int) : Frac :=
  if m < 0 then Frac.norm (-n) (-m).toNat else Frac.norm n m.toNat

def Frac.ofInt (n : Int) : Frac := ⟨n, 1⟩

def Frac.add (a b : Frac) : Frac := Frac.norm (a.num * b.den + b.num * a.den) (a.den * b.den)

def Frac.neg (a : Frac) : Frac := ⟨-a.num, a.den⟩

def Frac.sub (a b : Frac) : Frac := Frac.add a (Frac.neg b)

def Frac.mul (a b : Frac) : Frac := Frac.norm (a.num * b.num) (a.den * b.den)

/-- Exact division; callers guard against a zero divisor. -/
def Frac.div (a b : Frac) : Frac := Frac.normInt (a.num * b.den) (a.den * b.num)

def Frac.isZero (a : Frac) : Bool := a.num = 0

/-- Ten to an integer power, as a fraction. -/
def Frac.pow10 (e : Int) : Frac :=
  if 0 ≤ e then ⟨(10 ^ e.toNat : Nat), 1⟩ else ⟨1, 10 ^ (-e).toNat⟩

/-- A JavaScript number: exact rational, one of the infinities, or `NaN`. -/
inductive JSNum where
  | num (q : Frac)
  | posInf
  | negInf
  | nan
deriving DecidableEq

/-- Short-hand for an integer-valued JavaScript number. -/
def jnum (n : Int) : JSNum := JSNum.num (Frac.ofInt n)

/-- JavaScript unary negation. -/
def jsNeg : JSNum → JSNum
  | .num q => .num (Frac.neg q)
  | .posInf => .negInf
  | .negInf => .posInf
  | .nan => .nan

/-- JavaScript `+` on numbers. -/
def jsAdd : JSNum → JSNum → JSNum
  | .nan, _ => .nan
  | _, .nan => .nan
  | .posInf, .negInf => .nan
  | .negInf, .posInf => .nan
  | .posInf, _ => .posInf
  | _, .posInf => .posInf
  | .negInf, _ => .negInf
  | _, .negInf => .negInf
  | .num a, .num b => .num (Frac.add a b)

/-- JavaScript `-` on numbers (addition of the negation, as in IEEE). -/
def jsSub (a b : JSNum) : JSNum := jsAdd a (jsNeg b)

/-- JavaScript `*` on numbers. -/
def jsMul : JSNum → JSNum → JSNum
  | .nan, _ => .nan
  | _, .nan => .nan
  | .num a, .num b => .num (Frac.mul a b)
  | .posInf, .num b => if b.isZero then .nan else if b.num < 0 then .negInf else .posInf
  | .negInf, .num b => if b.isZero then .nan else if b.num < 0 then .posInf else .negInf
  | .num a, .posInf => if a.isZero then .nan else if a.num < 0 then .negInf else .posInf
  | .num a, .negInf => if a.isZero then .nan else if a.num < 0 then .posInf else .negInf
  | .posInf, .posInf => .posInf
  | .posInf, .negInf => .negInf
  | .negInf, .posInf => .negInf
  | .negInf, .negInf => .posInf

/-- JavaScript `/` on numbers.  In `applyOperator` the zero-divisor case is
intercepted before this runs, so the `b = 0` branches are unreachable there;
they follow the IEEE convention for completeness. -/
def jsDiv : JSNum → JSNum → JSNum
  | .nan, _ => .nan
  | _, .nan => .nan
  | .num a, .num b =>
      if b.isZero then
        if a.isZero then .nan else if a.num < 0 then .negInf else .posInf
      else .num (Frac.div a b)
  | .num _, .posInf => .num ⟨0, 1⟩
  | .num _, .negInf => .num ⟨0, 1⟩
  | .posInf, .num b => if b.num < 0 then .negInf else .posInf
  | .negInf, .num b => if b.num < 0 then .posInf else .negInf
  | _, _ => .nan

/-- JavaScript coercion of a possibly-`undefined` popped stack entry into a
number: `undefined` becomes `NaN` in arithmetic. -/
def toNum : Option JSNum → JSNum
  | none => .nan
  | some v => v

/-- JavaScript falsiness of a number (`0`, `-0` and `NaN` are falsy). -/
def jsFalsy : JSNum → Bool
  | .num q => q.isZero
  | .nan => true
  | _ => false

/-- `v || 0` on a possibly-`undefined` JavaScript number. -/
def jsOrZero (v : Option JSNum) : JSNum :=
  match v with
  | none => jnum 0
  | some x => if jsFalsy x then jnum 0 else x

/-! ### The JavaScript `Number(string)` conversion

`isNumber` in the source is `!isNaN(Number(token))`, so the embedding needs a
model of the ECMAScript string-to-number conversion: surrounding whitespace is
ignored, the empty string is `0`, signed decimal literals (with optional
fraction and exponent) and `Infinity` are recognized, unsigned `0x`/`0o`/`0b`
radix literals are recognized, and everything else is `NaN`. -/

def isWS (c : Char) : Bool := c = ' ' ∨ c = '\t' ∨ c = '\n' ∨ c = '\r'

def trimChars (cs : List Char) : List Char :=
  ((cs.dropWhile isWS).reverse.dropWhile isWS).reverse

/-- Split off a maximal leading run of decimal digits. -/
def takeDigits : List Char → List Char × List Char
  | [] => ([], [])
  | c :: cs =>
      if c.isDigit then
        let p := takeDigits cs
        (c :: p.1, p.2)
      else ([], c :: cs)

def digitsVal (ds : List Char) : Nat :=
  ds.foldl (fun a c => 10 * a + (c.toNat - 48)) 0

/-- A nonempty all-digit run, as an exponent value. -/
def expDigits (cs : List Char) : Option Int :=
  let p := takeDigits cs
  if p.1 = [] ∨ p.2 ≠ [] then none else some (digitsVal p.1 : Int)

/-- The optional exponent suffix of a decimal literal. -/
def expPart : List Char → Option Int
  | [] => some 0
  | c :: cs =>
      if c = 'e' ∨ c = 'E' then
        match cs with
        | '+' :: cs2 => expDigits cs2
        | '-' :: cs2 => (expDigits cs2).map (fun e => -e)
        | _ => expDigits cs
      else none

/-- An unsigned decimal literal: digits, optional fraction, optional exponent. -/
def jsDecimal (cs : List Char) : Option Frac :=
  let ip := takeDigits cs
  let core : Option (Frac × List Char) :=
    match ip.2 with
    | '.' :: r2 =>
        let fp := takeDigits r2
        if ip.1 = [] ∧ fp.1 = [] then none
        else some (Frac.norm ((digitsVal ip.1 : Int) * (10 ^ fp.1.length : Nat) +
                      (digitsVal fp.1 : Int)) (10 ^ fp.1.length), fp.2)
    | _ => if ip.1 = [] then none else some (⟨(digitsVal ip.1 : Int), 1⟩, ip.2)
  match core with
  | none => none
  | some (m, r) =>
      match expPart r with
      | none => none
      | some e => some (Frac.mul m (Frac.pow10 e))

def hexDigitVal (c : Char) : Option Nat :=
  if c.isDigit then some (c.toNat - 48)
  else if 'a' ≤ c ∧ c ≤ 'f' then some (c.toNat - 87)
  else if 'A' ≤ c ∧ c ≤ 'F' then some (c.toNat - 55)
  else none

/-- A nonempty run of digits in the given radix. -/
def radixVal (radix : Nat) (cs : List Char) : Option Nat :=
  match cs with
  | [] => none
  | _ =>
      cs.foldl (fun acc c =>
        match acc, hexDigitVal c with
        | some a, some d => if d < radix then some (radix * a + d) else none
        | _, _ => none) (some 0)

/-- An unsigned decimal literal or `Infinity`. -/
def decUnsigned (cs : List Char) : JSNum :=
  if cs = ['I', 'n', 'f', 'i', 'n', 'i', 't', 'y'] then .posInf
  else
    match jsDecimal cs with
    | some q => .num q
    | none => .nan

/-- An optionally signed decimal literal or `Infinity`. -/
def decSigned (cs : List Char) : JSNum :=
  match cs with
  | '-' :: r => jsNeg (decUnsigned r)
  | '+' :: r => decUnsigned r
  | _ => decUnsigned cs

/-- Model of the ECMAScript `Number(string)` conversion (`NaN` = `.nan`). -/
def jsStringToNumber (s : String) : JSNum :=
  match trimChars s.data with
  | [] => JSNum.num ⟨0, 1⟩
  | '0' :: c :: rest =>
      if c = 'x' ∨ c = 'X' then
        match radixVal 16 rest with | some n => .num ⟨(n : Int), 1⟩ | none => .nan
      else if c = 'o' ∨ c = 'O' then
        match radixVal 8 rest with | some n => .num ⟨(n : Int), 1⟩ | none => .nan
      else if c = 'b' ∨ c = 'B' then
        match radixVal 2 rest with | some n => .num ⟨(n : Int), 1⟩ | none => .nan
      else decSigned ('0' :: c :: rest)
  | cs => decSigned cs

/-! ### External collaborators (not under `src/`) -/

/-- Modelled from the spec: `Cell` (`Cell.ts`) is not under `src/`; per §6 it
exposes its stored formula tokens, stored error string, and cached value. -/
structure Cell where
  formula : List String
  error : String
  value : JSNum

/-- Modelled from the spec: `SheetMemory` (`SheetMemory.ts`) is not under
`src/`; per §6 it resolves a cell label to its `Cell`, read-only. -/
structure SheetMemory where
  getCellByLabel : String → Cell

/-- Modelled from the spec: `Cell.isValidCellLabel` (`Cell.ts`) is not under
`src/`; per §3/§6 a cell label is a column-letter prefix followed by a row
number. -/
def Cell.isValidCellLabel (token : String) : Bool :=
  let cs := token.data
  let letters := cs.takeWhile Char.isAlpha
  let rest := cs.dropWhile Char.isAlpha
  ¬ letters.isEmpty ∧ ¬ rest.isEmpty ∧ rest.all Char.isDigit

/-! Modelled from the spec: the `ErrorMessages` catalog (`GlobalDefinitions.ts`)
is not under `src/`; per §6 it is a table of six fixed, distinct opaque error
strings, here rendered by their catalog names. -/

namespace ErrorMessages

def emptyFormula : String := "emptyFormula"

def missingParentheses : String := "missingParentheses"

def invalidFormula : String := "invalidFormula"

def divideByZero : String := "divideByZero"

def invalidOperator : String := "invalidOperator"

def invalidCell : String := "invalidCell"

end ErrorMessages

/-! ### The evaluator state and helpers -/

/-- The mutable fields of `FormulaEvaluator` (`_errorMessage`, `_result`)
plus ghost instrumentation recording events of the current run:
`divHit` (a `/` was applied with right operand `0`), `deficient` (an
`applyOperator` pop acted on a stack with fewer than two entries), and
`cellErr` (a stored cell error was propagated, and which one).  The ghost
fields influence no branch of the embedded code. -/
structure EvalState where
  errorMessage : String
  result : JSNum
  divHit : Bool
  deficient : Bool
  cellErr : Option String
deriving DecidableEq

/-- `isNumber` (source line 155): `!isNaN(Number(token))`. -/
def isNumber (token : String) : Bool := jsStringToNumber token ≠ JSNum.nan

/-- `isCellReference` (source line 160). -/
def isCellReference (token : String) : Bool := Cell.isValidCellLabel token

/-- `isOperator` (source line 186). -/
def isOperator (token : String) : Bool := ["+", "-", "*", "/"].contains token

/-- `getOperatorPrecedence` (source line 191). -/
def getOperatorPrecedence (operator : String) : Nat :=
  if operator = "+" ∨ operator = "-" then 1
  else if operator = "*" ∨ operator = "/" then 2
  else 0

/-- `getCellValue` (source line 165): returns `[value, error]`. -/
def getCellValue (mem : SheetMemory) (token : String) : JSNum × String :=
  let cell := mem.getCellByLabel token
  if cell.error ≠ "" ∧ cell.error ≠ ErrorMessages.emptyFormula then (jnum 0, cell.error)
  else if cell.formula.length = 0 then (jnum 0, ErrorMessages.invalidCell)
  else (cell.value, "")

/-- The lookahead check `i < tokens.length - 1 && isOperator(tokens[i+1])`
(source line 83), phrased on the remaining-token list. -/
def headIsOperator (l : List String) : Bool :=
  match l.head? with
  | some t => isOperator t
  | none => false

/-- The check `isOperator(tokens[tokens.length - 1])` (source lines 99-100);
on the empty list the indexing yields `undefined`, which is not an operator. -/
def lastIsOperator (l : List String) : Bool :=
  match l.getLast? with
  | some t => isOperator t
  | none => false

/-- The fast-path check `formula.length === 2 && formula[0] === "(" &&
formula[1] === ")"` (source line 28). -/
def isParenPair (formula : List String) : Bool :=
  match formula with
  | [a, b] => a == "(" && b == ")"
  | _ => false

/-- The fast-path check on the last token (source lines 34-35):
`isOperator(lastCharacter) && lastCharacter !== ")"` (the second conjunct is
redundant since `")"` is not an operator, but is kept from the source). -/
def trailingOperatorCheck (formula : List String) : Bool :=
  match formula.getLast? with
  | some t => isOperator t && t != ")"
  | none => false

/-- Ghost bookkeeping of `applyOperator`: both pops happen before the switch,
so a stack with fewer than two entries is recorded as a deficient pop. -/
def markDeficient (values : List JSNum) (st : EvalState) : EvalState :=
  if values.length < 2 then { st with deficient := true } else st

/-- `applyOperator` (source line 123).  The stack top is the list head
(`values.pop()` pops the head); `undefined` operands from over-popping are
`none` and coerce to `NaN`.  Throwing is modelled by `Except.error ()` with
the state mutations that precede the throw applied. -/
def applyOperator (operator : String) (values : List JSNum) (st : EvalState) :
    EvalState × Except Unit (List JSNum) :=
  let operand2 := values.head?
  let operand1 := values.tail.head?
  let rest2 := values.tail.tail
  let st1 := markDeficient values st
  let o1 := toNum operand1
  let o2 := toNum operand2
  if operator = "+" then (st1, .ok (jsAdd o1 o2 :: rest2))
  else if operator = "-" then (st1, .ok (jsSub o1 o2 :: rest2))
  else if operator = "*" then (st1, .ok (jsMul o1 o2 :: rest2))
  else if operator = "/" then
    if o2 = jnum 0 then
      ({ st1 with result := .posInf, errorMessage := ErrorMessages.divideByZero,
                  divHit := true }, .error ())
    else (st1, .ok (jsDiv o1 o2 :: rest2))
  else ({ st1 with errorMessage := ErrorMessages.invalidOperator }, .error ())

/-- The `while` loop of the `")"` case (source lines 75-80): pop and apply
until the top is `"("` or the stack empties. -/
def parenWhile (values : List JSNum) (operators : List String) (st : EvalState) :
    EvalState × Except Unit (List JSNum × List String) :=
  match operators with
  | [] => (st, .ok (values, []))
  | top :: rest =>
      if top = "(" then (st, .ok (values, top :: rest))
      else
        match applyOperator top values st with
        | (st1, .ok values1) => parenWhile values1 rest st1
        | (st1, .error e) => (st1, .error e)

/-- The `while` loop of the operator case (source lines 87-93): reduce pending
operators of greater-or-equal precedence. -/
def precWhile (token : String) (values : List JSNum) (operators : List String)
    (st : EvalState) : EvalState × Except Unit (List JSNum × List String) :=
  match operators with
  | [] => (st, .ok (values, []))
  | top :: rest =>
      if getOperatorPrecedence token ≤ getOperatorPrecedence top then
        match applyOperator top values st with
        | (st1, .ok values1) => precWhile token values1 rest st1
        | (st1, .error e) => (st1, .error e)
      else (st, .ok (values, top :: rest))

/-- The drain loop (source lines 115-117): apply all remaining operators. -/
def drainWhile (values : List JSNum) (operators : List String) (st : EvalState) :
    EvalState × Except Unit (List JSNum) :=
  match operators with
  | [] => (st, .ok values)
  | top :: rest =>
      match applyOperator top values st with
      | (st1, .ok values1) => drainWhile values1 rest st1
      | (st1, .error e) => (st1, .error e)

/-- Outcome of the token scan (source lines 55-96): an early `return`, a
thrown exception, or falling off the loop with the two stacks. -/
inductive LoopOut where
  | ret (v : JSNum)
  | thrown
  | done (values : List JSNum) (operators : List String)

/-- The token scan of `evaluateExpression` (source lines 55-96), one token at
a time with one-token lookahead (`tokens[i+1]` is the head of the remaining
list). -/
def evalLoop (mem : SheetMemory) :
    List String → List JSNum → List String → EvalState → EvalState × LoopOut
  | [], values, operators, st => (st, .done values operators)
  | token :: rest, values, operators, st =>
      if isNumber token then
        if rest.head? = some "(" then
          ({ st with errorMessage := ErrorMessages.invalidFormula },
            .ret (jsStringToNumber token))
        else evalLoop mem rest (jsStringToNumber token :: values) operators st
      else if isCellReference token then
        let cell := mem.getCellByLabel token
        let ve := getCellValue mem token
        if ve.2 ≠ "" then
          let st1 := if cell.error ≠ "" ∧ cell.error ≠ ErrorMessages.emptyFormula
            then { st with cellErr := some cell.error } else st
          ({ st1 with errorMessage := ve.2 }, .thrown)
        else evalLoop mem rest (ve.1 :: values) operators st
      else if token = "(" then evalLoop mem rest values (token :: operators) st
      else if token = ")" then
        match parenWhile values operators st with
        | (st1, .ok vo) => evalLoop mem rest vo.1 vo.2.tail st1
        | (st1, .error _) => (st1, .thrown)
      else if isOperator token then
        if headIsOperator rest then
          ({ st with errorMessage := ErrorMessages.invalidFormula },
            .ret (jsOrZero values.head?))
        else
          match precWhile token values operators st with
          | (st1, .ok vo) => evalLoop mem rest vo.1 (token :: vo.2) st1
          | (st1, .error _) => (st1, .thrown)
      else evalLoop mem rest values operators st

/-- `evaluateExpression` (source line 51): run the scan, then the
trailing-operator check, the unmatched-operator guard, the drain phase and
the final `values.pop() || 0`. -/
def evaluateExpression (mem : SheetMemory) (tokens : List String) (st : EvalState) :
    EvalState × Except Unit JSNum :=
  match evalLoop mem tokens [] [] st with
  | (st1, .ret v) => (st1, .ok v)
  | (st1, .thrown) => (st1, .error ())
  | (st1, .done values operators) =>
      if lastIsOperator tokens then
        ({ st1 with errorMessage := ErrorMessages.invalidFormula },
          .ok (jsOrZero values.head?))
      else if operators.length > 0 ∧
          (isOperator (operators.headD "") = false ∨ values.length < 2) then
        ({ st1 with errorMessage := ErrorMessages.invalidFormula }, .error ())
      else
        match drainWhile values operators st1 with
        | (st2, .ok values2) => (st2, .ok (jsOrZero values2.head?))
        | (st2, .error _) => (st2, .error ())

/-- The reset at the top of `evaluate` (source line 19) clears only
`_errorMessage`; the ghost instrumentation fields are cleared here too so
that they describe the current call. -/
def startState (st : EvalState) : EvalState :=
  { st with errorMessage := "", divHit := false, deficient := false, cellErr := none }

/-- The state `evaluate` hands to `evaluateExpression`: after the reset and
the trailing-operator fast check (source lines 34-37). -/
def preState (st : EvalState) (formula : List String) : EvalState :=
  let st1 := startState st
  if trailingOperatorCheck formula then
    { st1 with errorMessage := ErrorMessages.invalidFormula }
  else st1

/-- `evaluate` (source line 17): fast-path checks, then the expression
evaluation with its `try`/`catch`. -/
def evaluate (mem : SheetMemory) (st : EvalState) (formula : List String) : EvalState :=
  if formula.length = 0 then
    { startState st with errorMessage := ErrorMessages.emptyFormula }
  else if isParenPair formula then
    { startState st with errorMessage := ErrorMessages.missingParentheses }
  else
    match evaluateExpression mem formula (preState st formula) with
    | (st1, .ok v) => { st1 with result := v }
    | (st1, .error _) =>
        if st1.errorMessage = "" then
          { st1 with errorMessage := ErrorMessages.invalidFormula }
        else st1

/-- A sheet memory with no errors and all cells holding `0` (used for
formulas that contain no cell references). -/
def memZero : SheetMemory := ⟨fun _ => ⟨["0"], "", jnum 0⟩⟩

/-- A fresh evaluator state. -/
def stInit : EvalState := ⟨"", jnum 0, false, false, none⟩

/-- A sheet memory where cell `A1` carries the stored (propagated) error
`"circular"` and every other cell holds `0` without error. -/
def memA1 : SheetMemory :=
  ⟨fun l => if l = "A1" then ⟨["1"], "circular", jnum 1⟩ else ⟨["0"], "", jnum 0⟩⟩

/-- An evaluator state left over from a previous call that computed `99`. -/
def st99 : EvalState := { stInit with result := jnum 99 }

/-- An evaluator state left over from a previous failing call. -/
def stStale : EvalState :=
  { errorMessage := "oldError", result := jnum 99, divHit := false,
    deficient := false, cellErr := none }

/-! ### Run invariants

`Frame st st' thrown` relates the state at the start of (part of) a run to
the state after it: `_result` is unchanged unless the divide-by-zero branch
fired (in which case the recorded error is `divideByZero`, the result is
`+Infinity` and the run threw); the `divHit` ghost flag only appears together
with those divide-by-zero effects; and a newly recorded `cellErr` ghost entry
appears only together with `_errorMessage` having been set to exactly that
(nonempty) cell error by a throwing branch. -/

def Frame (st st' : EvalState) (thrown : Prop) : Prop :=
  (st'.result = st.result ∨
    (st'.errorMessage = ErrorMessages.divideByZero ∧ st'.result = .posInf ∧ thrown)) ∧
  (st'.divHit = true → st.divHit = true ∨
    (st'.errorMessage = ErrorMessages.divideByZero ∧ st'.result = .posInf ∧ thrown)) ∧
  (∀ e, st'.cellErr = some e → st.cellErr = some e ∨
    (st'.errorMessage = e ∧ e ≠ "" ∧ thrown))

theorem Frame.refl {st : EvalState} {p : Prop} : Frame st st p :=
  ⟨Or.inl (Eq.refl st.result), fun h => Or.inl h, fun _ h => Or.inl h⟩

theorem Frame.mono {st st' : EvalState} {p q : Prop} (h : Frame st st' p)
    (hpq : p → q) : Frame st st' q := by
  obtain ⟨h1, h2, h3⟩ := h
  refine ⟨?_, ?_, ?_⟩
  · rcases h1 with h1 | ⟨a, b, c⟩
    · exact Or.inl h1
    · exact Or.inr ⟨a, b, hpq c⟩
  · intro hd
    rcases h2 hd with h2 | ⟨a, b, c⟩
    · exact Or.inl h2
    · exact Or.inr ⟨a, b, hpq c⟩
  · intro e he
    rcases h3 e he with h3 | ⟨a, b, c⟩
    · exact Or.inl h3
    · exact Or.inr ⟨a, b, hpq c⟩

/-- Collapse a `Frame` whose `thrown` proposition is refuted: the run changed
neither `_result` nor the ghost flags. -/
theorem Frame.collapse {st st' : EvalState} {p : Prop} (h : Frame st st' p)
    (hnp : ¬ p) :
    st'.result = st.result ∧ (st'.divHit = true → st.divHit = true) ∧
      (∀ e, st'.cellErr = some e → st.cellErr = some e) := by
  obtain ⟨h1, h2, h3⟩ := h
  refine ⟨?_, ?_, ?_⟩
  · rcases h1 with h1 | ⟨_, _, c⟩
    · exact h1
    · exact absurd c hnp
  · intro hd
    rcases h2 hd with h2 | ⟨_, _, c⟩
    · exact h2
    · exact absurd c hnp
  · intro e he
    rcases h3 e he with h3 | ⟨_, _, c⟩
    · exact h3
    · exact absurd c hnp

/-- Build a `Frame` from plain frame facts. -/
theorem Frame.of_eqs {st st' : EvalState} {p : Prop}
    (h1 : st'.result = st.result) (h2 : st'.divHit = true → st.divHit = true)
    (h3 : ∀ e, st'.cellErr = some e → st.cellErr = some e) : Frame st st' p :=
  ⟨Or.inl h1, fun h => Or.inl (h2 h), fun e he => Or.inl (h3 e he)⟩

/-- Chain a non-throwing `Frame` with the `Frame` of the continuation. -/
theorem Frame.trans_ok {st st1 st2 : EvalState} {p q : Prop}
    (h : Frame st st1 p) (hnp : ¬ p) (h' : Frame st1 st2 q) : Frame st st2 q := by
  obtain ⟨e1, e2, e3⟩ := h.collapse hnp
  obtain ⟨g1, g2, g3⟩ := h'
  refine ⟨?_, ?_, ?_⟩
  · rcases g1 with g1 | g1
    · exact Or.inl (g1.trans e1)
    · exact Or.inr g1
  · intro hd
    rcases g2 hd with g2 | g2
    · exact Or.inl (e2 g2)
    · exact Or.inr g2
  · intro e he
    rcases g3 e he with g3 | g3
    · exact Or.inl (e3 e g3)
    · exact Or.inr g3

theorem markDeficient_result (values : List JSNum) (st : EvalState) :
    (markDeficient values st).result = st.result := by
  unfold markDeficient; split <;> rfl

theorem markDeficient_errorMessage (values : List JSNum) (st : EvalState) :
    (markDeficient values st).errorMessage = st.errorMessage := by
  unfold markDeficient; split <;> rfl

theorem markDeficient_divHit (values : List JSNum) (st : EvalState) :
    (markDeficient values st).divHit = st.divHit := by
  unfold markDeficient; split <;> rfl

theorem markDeficient_cellErr (values : List JSNum) (st : EvalState) :
    (markDeficient values st).cellErr = st.cellErr := by
  unfold markDeficient; split <;> rfl

/-- The non-throwing branches of `applyOperator` only touch the stacks and the
`deficient` ghost flag. -/
theorem frame_mark {st : EvalState} {vs : List JSNum} {p : Prop} :
    Frame st (markDeficient vs st) p :=
  Frame.of_eqs (markDeficient_result vs st)
    (fun h => by rwa [markDeficient_divHit] at h)
    (fun e h => by rwa [markDeficient_cellErr] at h)

theorem applyOperator_frame (op : String) (vs : List JSNum) (st : EvalState) :
    Frame st (applyOperator op vs st).1 ((applyOperator op vs st).2 = Except.error ()) := by
  unfold applyOperator
  dsimp only
  split
  · exact frame_mark
  · split
    · exact frame_mark
    · split
      · exact frame_mark
      · split
        · split
          · exact ⟨Or.inr ⟨rfl, rfl, rfl⟩, fun _ => Or.inr ⟨rfl, rfl, rfl⟩,
              fun e he => Or.inl (by rw [← markDeficient_cellErr vs st]; exact he)⟩
          · exact frame_mark
        · exact ⟨Or.inl (markDeficient_result vs st),
            fun h => Or.inl (by rwa [markDeficient_divHit] at h),
            fun e h => Or.inl (by rwa [markDeficient_cellErr] at h)⟩

theorem parenWhile_frame (ops : List String) (vs : List JSNum) (st : EvalState) :
    Frame st (parenWhile vs ops st).1 ((parenWhile vs ops st).2 = Except.error ()) := by
  induction ops generalizing vs st with
  | nil => exact Frame.refl
  | cons top rest ih =>
      show Frame st (parenWhile vs (top :: rest) st).1 _
      rw [parenWhile]
      split
      · exact Frame.refl
      · rcases h : applyOperator top vs st with ⟨st1, r⟩
        have hf := applyOperator_frame top vs st
        rw [h] at hf
        cases r with
        | ok vs1 =>
            exact Frame.trans_ok hf (by simp) (ih vs1 st1)
        | error e =>
            exact hf.mono (fun _ => rfl)

theorem precWhile_frame (token : String) (ops : List String) (vs : List JSNum)
    (st : EvalState) :
    Frame st (precWhile token vs ops st).1
      ((precWhile token vs ops st).2 = Except.error ()) := by
  induction ops generalizing vs st with
  | nil => exact Frame.refl
  | cons top rest ih =>
      show Frame st (precWhile token vs (top :: rest) st).1 _
      rw [precWhile]
      split
      · rcases h : applyOperator top vs st with ⟨st1, r⟩
        have hf := applyOperator_frame top vs st
        rw [h] at hf
        cases r with
        | ok vs1 => exact Frame.trans_ok hf (by simp) (ih vs1 st1)
        | error e => exact hf.mono (fun _ => rfl)
      · exact Frame.refl

theorem drainWhile_frame (ops : List String) (vs : List JSNum) (st : EvalState) :
    Frame st (drainWhile vs ops st).1 ((drainWhile vs ops st).2 = Except.error ()) := by
  induction ops generalizing vs st with
  | nil => exact Frame.refl
  | cons top rest ih =>
      show Frame st (drainWhile vs (top :: rest) st).1 _
      rw [drainWhile]
      rcases h : applyOperator top vs st with ⟨st1, r⟩
      have hf := applyOperator_frame top vs st
      rw [h] at hf
      cases r with
      | ok vs1 => exact Frame.trans_ok hf (by simp) (ih vs1 st1)
      | error e => exact hf.mono (fun _ => rfl)

theorem evalLoop_frame (mem : SheetMemory) (tokens : List String) (vs : List JSNum)
    (ops : List String) (st : EvalState) :
    Frame st (evalLoop mem tokens vs ops st).1
      ((evalLoop mem tokens vs ops st).2 = LoopOut.thrown) := by
  induction tokens generalizing vs ops st with
  | nil => exact Frame.refl
  | cons token rest ih =>
      show Frame st (evalLoop mem (token :: rest) vs ops st).1 _
      rw [evalLoop]
      dsimp only
      split
      · -- number token
        split
        · exact Frame.of_eqs rfl (fun h => h) (fun _ h => h)
        · exact ih _ _ _
      · split
        · -- cell reference token
          split
          · -- the resolver reported an error
            split
            · -- ghost: a stored cell error is being propagated
              rename_i hval _ herr hcell
              refine ⟨Or.inl rfl, fun h => Or.inl h, fun e he => Or.inr ?_⟩
              have he' : (mem.getCellByLabel token).error = e := by
                simpa using he
              refine ⟨?_, ?_, rfl⟩
              · show (getCellValue mem token).2 = e
                rw [getCellValue, if_pos hcell]
                exact he'
              · rw [← he']
                exact hcell.1
            · exact Frame.of_eqs rfl (fun h => h) (fun _ h => h)
          · exact ih _ _ _
        · split
          · -- "(" token
            exact ih _ _ _
          · split
            · -- ")" token
              rcases h : parenWhile vs ops st with ⟨st1, r⟩
              have hf := parenWhile_frame ops vs st
              rw [h] at hf
              cases r with
              | ok vo => exact Frame.trans_ok hf (by simp) (ih _ _ _)
              | error e => exact hf.mono (fun _ => rfl)
            · split
              · -- operator token
                split
                · exact Frame.of_eqs rfl (fun h => h) (fun _ h => h)
                · rcases h : precWhile token vs ops st with ⟨st1, r⟩
                  have hf := precWhile_frame token ops vs st
                  rw [h] at hf
                  cases r with
                  | ok vo => exact Frame.trans_ok hf (by simp) (ih _ _ _)
                  | error e => exact hf.mono (fun _ => rfl)
              · -- unrecognized token: skipped
                exact ih _ _ _

theorem evaluateExpression_frame (mem : SheetMemory) (tokens : List String)
    (st : EvalState) :
    Frame st (evaluateExpression mem tokens st).1
      ((evaluateExpression mem tokens st).2 = Except.error ()) := by
  rw [evaluateExpression]
  rcases h : evalLoop mem tokens [] [] st with ⟨st1, out⟩
  have hf := evalLoop_frame mem tokens [] [] st
  rw [h] at hf
  cases out with
  | ret v => exact hf.mono (by simp)
  | thrown => exact hf.mono (fun _ => rfl)
  | done values operators =>
      have hc := hf.collapse (by simp)
      dsimp only
      split
      · exact Frame.of_eqs hc.1 hc.2.1 hc.2.2
      · split
        · exact Frame.of_eqs hc.1 hc.2.1 hc.2.2
        · rcases hd : drainWhile values operators st1 with ⟨st2, r⟩
          have hg := drainWhile_frame operators values st1
          rw [hd] at hg
          have hfc : Frame st st1 False := Frame.of_eqs hc.1 hc.2.1 hc.2.2
          cases r with
          | ok values2 => exact Frame.trans_ok hfc (fun hx => hx) (hg.mono (by simp))
          | error e => exact Frame.trans_ok hfc (fun hx => hx) (hg.mono (fun _ => rfl))

theorem preState_result (st : EvalState) (f : List String) :
    (preState st f).result = st.result := by
  unfold preState startState; split <;> rfl

theorem preState_divHit (st : EvalState) (f : List String) :
    (preState st f).divHit = false := by
  unfold preState startState; split <;> rfl

theorem preState_cellErr (st : EvalState) (f : List String) :
    (preState st f).cellErr = none := by
  unfold preState startState; split <;> rfl

/-- C1.  For well-formed arithmetic formulas, `evaluate` computes the
standard-precedence result with empty error: `["2","*","3","+","4"]` gives
result `10` and error `""` (multiplication binds tighter than addition), and
`["(","2","+","3",")","*","4"]` gives result `20` and error `""`
(parentheses override precedence) — for every sheet memory and every prior
evaluator state. -/
theorem evaluate_precedence_and_parentheses (mem : SheetMemory) (st : EvalState) :
    ((evaluate mem st ["2", "*", "3", "+", "4"]).result = jnum 10 ∧
      (evaluate mem st ["2", "*", "3", "+", "4"]).errorMessage = "") ∧
    ((evaluate mem st ["(", "2", "+", "3", ")", "*", "4"]).result = jnum 20 ∧
      (evaluate mem st ["(", "2", "+", "3", ")", "*", "4"]).errorMessage = "") :=
  ⟨⟨rfl, rfl⟩, rfl, rfl⟩

/-- C2.  Whenever an evaluation run applies `/` with right operand `0`
(recorded by the `divHit` ghost flag, which only the divide-by-zero branch of
`applyOperator` sets), `evaluate` ends with `_result` forced to positive
infinity and `_errorMessage` exactly `divideByZero`; the branch throws, so
the rest of the evaluation (and its stacks) is discarded. -/
theorem evaluate_divide_by_zero_outcome (mem : SheetMemory) (st : EvalState)
    (formula : List String) (h : (evaluate mem st formula).divHit = true) :
    (evaluate mem st formula).errorMessage = ErrorMessages.divideByZero ∧
    (evaluate mem st formula).result = JSNum.posInf := by
  by_cases h0 : formula.length = 0
  · rw [evaluate, if_pos h0] at h
    simp [startState] at h
  · by_cases h1 : isParenPair formula = true
    · rw [evaluate, if_neg h0, if_pos h1] at h
      simp [startState] at h
    · rw [evaluate, if_neg h0, if_neg h1] at h ⊢
      rcases he : evaluateExpression mem formula (preState st formula) with ⟨st1, r⟩
      rw [he] at h
      have hf := evaluateExpression_frame mem formula (preState st formula)
      rw [he] at hf
      cases r with
      | ok v =>
          dsimp only at h
          rcases hf.2.1 h with hl | ⟨_, _, c⟩
          · rw [preState_divHit] at hl; simp at hl
          · simp at c
      | error e =>
          dsimp only at h ⊢
          by_cases hm : st1.errorMessage = ""
          · rw [if_pos hm] at h ⊢
            rcases hf.2.1 h with hl | ⟨a, _, _⟩
            · rw [preState_divHit] at hl; simp at hl
            · rw [hm] at a
              exact absurd a (by decide)
          · rw [if_neg hm] at h ⊢
            rcases hf.2.1 h with hl | ⟨a, b, _⟩
            · rw [preState_divHit] at hl; simp at hl
            · exact ⟨a, b⟩

/-- Witness for C2 at the concrete formula `["3","/","0"]`. -/
theorem evaluate_divide_by_zero_outcome_witness :
    (evaluate memZero stInit ["3", "/", "0"]).divHit = true ∧
    ((evaluate memZero stInit ["3", "/", "0"]).errorMessage = ErrorMessages.divideByZero ∧
      (evaluate memZero stInit ["3", "/", "0"]).result = JSNum.posInf) :=
  ⟨rfl, evaluate_divide_by_zero_outcome memZero stInit ["3", "/", "0"] rfl⟩

/-- C3 counterexample.  `["3","+","*","4"]` makes `evaluate` fail with
`invalidFormula` (which is not `divideByZero`), yet the previously stored
result `99` is overwritten with the best-effort value `3`: the claim that
only divide-by-zero may overwrite `_result` on failure is false. -/
theorem soft_failure_overwrites_result :
    (evaluate memZero st99 ["3", "+", "*", "4"]).errorMessage =
      ErrorMessages.invalidFormula ∧
    ErrorMessages.invalidFormula ≠ ErrorMessages.divideByZero ∧
    st99.result = jnum 99 ∧
    (evaluate memZero st99 ["3", "+", "*", "4"]).result = jnum 3 ∧
    jnum 3 ≠ jnum 99 :=
  ⟨rfl, by decide, rfl, rfl, by decide⟩

/-- C3 amended.  On a call that does not fail with `divideByZero`, the stored
`_result` is either left unchanged (fast-path errors and thrown failures) or
overwritten with the value `evaluateExpression` returned normally — which on
the soft failure paths (`invalidFormula` flagged without a throw) is the
best-effort partial value, not the previous result. -/
theorem evaluate_result_frame_except_divzero (mem : SheetMemory) (st : EvalState)
    (formula : List String)
    (h : (evaluate mem st formula).errorMessage ≠ ErrorMessages.divideByZero) :
    (evaluate mem st formula).result = st.result ∨
      (evaluateExpression mem formula (preState st formula)).2 =
        Except.ok ((evaluate mem st formula).result) := by
  by_cases h0 : formula.length = 0
  · rw [evaluate, if_pos h0]
    exact Or.inl rfl
  · by_cases h1 : isParenPair formula = true
    · rw [evaluate, if_neg h0, if_pos h1]
      exact Or.inl rfl
    · rw [evaluate, if_neg h0, if_neg h1] at h ⊢
      rcases he : evaluateExpression mem formula (preState st formula) with ⟨st1, r⟩
      rw [he] at h
      have hf := evaluateExpression_frame mem formula (preState st formula)
      rw [he] at hf
      cases r with
      | ok v => exact Or.inr rfl
      | error e =>
          dsimp only at h ⊢
          refine Or.inl ?_
          by_cases hm : st1.errorMessage = ""
          · rw [if_pos hm] at h ⊢
            rcases hf.1 with hr | ⟨a, _, _⟩
            · exact hr.trans (preState_result st formula)
            · rw [hm] at a
              exact absurd a (by decide)
          · rw [if_neg hm] at h ⊢
            rcases hf.1 with hr | ⟨a, _, _⟩
            · exact hr.trans (preState_result st formula)
            · exact absurd a h

/-- Witness for the amended C3 at `["3","+","*","4"]` from a state whose
previous result was `99`. -/
theorem evaluate_result_frame_except_divzero_witness :
    (evaluate memZero st99 ["3", "+", "*", "4"]).errorMessage ≠
      ErrorMessages.divideByZero ∧
    ((evaluate memZero st99 ["3", "+", "*", "4"]).result = st99.result ∨
      (evaluateExpression memZero ["3", "+", "*", "4"]
          (preState st99 ["3", "+", "*", "4"])).2 =
        Except.ok ((evaluate memZero st99 ["3", "+", "*", "4"]).result)) :=
  ⟨by decide,
    evaluate_result_frame_except_divzero memZero st99 ["3", "+", "*", "4"] (by decide)⟩

/-- C4.  The comment at the top of `evaluate` says "Reset error message and
result", and the spec says both stored fields are reset at the start of every
call, but the code resets only `_errorMessage`: after a previous call left
`_result = 99` and `_errorMessage = "oldError"`, evaluating the empty formula
reports `emptyFormula` (the error was reset) while `result` still returns the
stale `99` (the result was not reset). -/
theorem evaluate_resets_error_but_not_result :
    (evaluate memZero stStale []).errorMessage = ErrorMessages.emptyFormula ∧
    stStale.result = jnum 99 ∧
    (evaluate memZero stStale []).result = jnum 99 ∧
    (startState stStale).errorMessage = "" :=
  ⟨rfl, rfl, rfl, rfl⟩

/-- C5 counterexample.  `["3","+","*","A1"]` contains the cell reference
`A1`, whose stored error `"circular"` is nonempty and differs from
`emptyFormula`, yet `evaluate` reports `invalidFormula`: the scan aborts at
the adjacent-operator pair before the reference is reached, so the claim is
false for formulas whose scan never reaches the reference. -/
theorem cell_error_unreached_not_propagated :
    Cell.isValidCellLabel "A1" = true ∧
    (memA1.getCellByLabel "A1").error = "circular" ∧
    "circular" ≠ "" ∧ "circular" ≠ ErrorMessages.emptyFormula ∧
    "A1" ∈ ["3", "+", "*", "A1"] ∧
    (evaluate memA1 stInit ["3", "+", "*", "A1"]).errorMessage =
      ErrorMessages.invalidFormula ∧
    ErrorMessages.invalidFormula ≠ "circular" :=
  ⟨rfl, rfl, by decide, by decide, by decide, rfl, by decide⟩

/-- C5 amended.  Whenever the scan actually resolves a cell reference whose
stored error is nonempty and differs from `emptyFormula` (recorded by the
`cellErr` ghost field, which only that branch sets, to exactly the stored
error), `evaluate` ends with `_errorMessage` equal to that error string,
verbatim; the branch throws, aborting the evaluation. -/
theorem evaluate_propagates_resolved_cell_error (mem : SheetMemory) (st : EvalState)
    (formula : List String) (e : String)
    (h : (evaluate mem st formula).cellErr = some e) :
    (evaluate mem st formula).errorMessage = e := by
  by_cases h0 : formula.length = 0
  · rw [evaluate, if_pos h0] at h
    exact absurd h (by simp [startState])
  · by_cases h1 : isParenPair formula = true
    · rw [evaluate, if_neg h0, if_pos h1] at h
      exact absurd h (by simp [startState])
    · rw [evaluate, if_neg h0, if_neg h1] at h ⊢
      rcases he : evaluateExpression mem formula (preState st formula) with ⟨st1, r⟩
      rw [he] at h
      have hf := evaluateExpression_frame mem formula (preState st formula)
      rw [he] at hf
      cases r with
      | ok v =>
          dsimp only at h
          rcases hf.2.2 e h with hl | ⟨_, _, c⟩
          · rw [preState_cellErr] at hl; simp at hl
          · simp at c
      | error e2 =>
          dsimp only at h ⊢
          by_cases hm : st1.errorMessage = ""
          · rw [if_pos hm] at h ⊢
            rcases hf.2.2 e h with hl | ⟨a, b, _⟩
            · rw [preState_cellErr] at hl; simp at hl
            · rw [hm] at a
              exact absurd a.symm b
          · rw [if_neg hm] at h ⊢
            rcases hf.2.2 e h with hl | ⟨a, _, _⟩
            · rw [preState_cellErr] at hl; simp at hl
            · exact a

/-- Witness for the amended C5: `["A1","+","2"]` resolves `A1`, whose stored
error `"circular"` is propagated verbatim. -/
theorem evaluate_propagates_resolved_cell_error_witness :
    (evaluate memA1 stInit ["A1", "+", "2"]).cellErr = some "circular" ∧
    (evaluate memA1 stInit ["A1", "+", "2"]).errorMessage = "circular" :=
  ⟨rfl, evaluate_propagates_resolved_cell_error memA1 stInit ["A1", "+", "2"]
    "circular" rfl⟩

theorem isOperator_elim {t : String} (h : isOperator t = true) :
    t = "+" ∨ t = "-" ∨ t = "*" ∨ t = "/" := by
  simp [isOperator, List.contains] at h
  tauto

/-- C6 counterexample.  In `["1","/","0",")","+","-","2"]` the operator `"+"`
is immediately followed by the operator `"-"`, yet `evaluate` reports
`divideByZero` (the `")"` reduction applies `1/0` and aborts before the scan
reaches the pair), so the claim is false as stated for every formula
containing such a pair. -/
theorem adjacent_operators_can_yield_other_error :
    isOperator "+" = true ∧ isOperator "-" = true ∧
    ["1", "/", "0", ")", "+", "-", "2"][4]? = some "+" ∧
    ["1", "/", "0", ")", "+", "-", "2"][5]? = some "-" ∧
    (evaluate memZero stInit ["1", "/", "0", ")", "+", "-", "2"]).errorMessage =
      ErrorMessages.divideByZero ∧
    ErrorMessages.divideByZero ≠ ErrorMessages.invalidFormula :=
  ⟨rfl, rfl, rfl, rfl, rfl, by decide⟩

/-- C6 amended.  When the scan reaches an operator token whose immediate
successor is also an operator (no earlier abort having occurred), it stops at
that point: the step sets `_errorMessage` to `invalidFormula` and returns the
last computed value (`values[values.length-1] || 0`) as a best-effort result. -/
theorem operator_operator_scan_abort (mem : SheetMemory) (t t2 : String)
    (rest : List String) (vs : List JSNum) (ops : List String) (st : EvalState)
    (h : isOperator t = true) (h2 : isOperator t2 = true) :
    evalLoop mem (t :: t2 :: rest) vs ops st =
      ({ st with errorMessage := ErrorMessages.invalidFormula },
        LoopOut.ret (jsOrZero vs.head?)) := by
  have hh : headIsOperator (t2 :: rest) = true := by
    simp [headIsOperator, h2]
  rcases isOperator_elim h with rfl | rfl | rfl | rfl <;>
    rw [evalLoop, if_neg (by decide), if_neg (by decide), if_neg (by decide),
      if_neg (by decide), if_pos (by decide), if_pos hh]

/-- Witness for the amended C6 at the scan position `["+","*","4"]` with the
value `3` already on the stack. -/
theorem operator_operator_scan_abort_witness :
    isOperator "+" = true ∧ isOperator "*" = true ∧
    evalLoop memZero ["+", "*", "4"] [jnum 3] [] stInit =
      ({ stInit with errorMessage := ErrorMessages.invalidFormula },
        LoopOut.ret (jsOrZero [jnum 3].head?)) :=
  ⟨rfl, rfl,
    operator_operator_scan_abort memZero "+" "*" ["4"] [jnum 3] [] stInit rfl rfl⟩

/-- C7.  Equal-precedence operators reduce left-associatively:
`["8","-","3","-","2"]` evaluates to `3` (not `7`) with empty error, because
the precedence loop applies a pending operator whenever the incoming token's
precedence is less than or equal to the pending one's (the reduction step is
stated for any pending operator whose application succeeds). -/
theorem evaluate_left_associative (mem : SheetMemory) (st : EvalState)
    (t top : String) (vs vs3 : List JSNum) (ops : List String)
    (st2 st3 : EvalState)
    (h : getOperatorPrecedence t ≤ getOperatorPrecedence top)
    (ha : applyOperator top vs st2 = (st3, Except.ok vs3)) :
    ((evaluate mem st ["8", "-", "3", "-", "2"]).result = jnum 3 ∧
      (evaluate mem st ["8", "-", "3", "-", "2"]).errorMessage = "") ∧
    precWhile t vs (top :: ops) st2 = precWhile t vs3 ops st3 := by
  refine ⟨⟨rfl, rfl⟩, ?_⟩
  rw [precWhile, if_pos h, ha]

/-- Witness for C7: the second `-` of `["8","-","3","-","2"]` reduces the
pending `-` (equal precedence) over the stack `[3, 8]`, yielding `8 - 3 = 5`. -/
theorem evaluate_left_associative_witness :
    getOperatorPrecedence "-" ≤ getOperatorPrecedence "-" ∧
    applyOperator "-" [jnum 3, jnum 8] stInit = (stInit, Except.ok [jnum 5]) ∧
    (((evaluate memZero stInit ["8", "-", "3", "-", "2"]).result = jnum 3 ∧
      (evaluate memZero stInit ["8", "-", "3", "-", "2"]).errorMessage = "") ∧
    precWhile "-" [jnum 3, jnum 8] ["-"] stInit = precWhile "-" [jnum 5] [] stInit) :=
  ⟨by decide, rfl,
    evaluate_left_associative memZero stInit "-" "-" [jnum 3, jnum 8] [jnum 5] []
      stInit stInit (by decide) rfl⟩

/-- C8.  A `")"` token met while the operator stack is empty is a silent
no-op: the scan step changes nothing and evaluation continues (for every
remaining token list, value stack and state); in particular `["3",")"]`
completes with result `3` and error `""`. -/
theorem close_paren_empty_stack_tolerated (mem : SheetMemory) (st : EvalState)
    (rest : List String) (vs : List JSNum) :
    evalLoop mem (")" :: rest) vs [] st = evalLoop mem rest vs [] st ∧
    (evaluate mem st ["3", ")"]).result = jnum 3 ∧
    (evaluate mem st ["3", ")"]).errorMessage = "" := by
  refine ⟨?_, rfl, rfl⟩
  rw [evalLoop, if_neg (by decide), if_neg (by decide), if_neg (by decide),
    if_pos (by decide)]
  rfl

/-- C9.  `applyOperator` pops its operands without checking the stack holds
two entries: on `["(","+","3",")"]` the `")"` reduction applies `+` to the
single-entry stack `[3]` (the missing operand is `undefined`, the sum `NaN`
— recorded by the `deficient` ghost flag), yet `evaluate` completes with
error `""`; the final `values.pop() || 0` turns the `NaN` into the reported
result `0`, which is not the result of a valid two-operand application. -/
theorem deficient_pop_completes_without_error (mem : SheetMemory)
    (st st2 : EvalState) :
    ((evaluate mem st ["(", "+", "3", ")"]).errorMessage = "" ∧
      (evaluate mem st ["(", "+", "3", ")"]).deficient = true ∧
      (evaluate mem st ["(", "+", "3", ")"]).result = jnum 0) ∧
    applyOperator "+" [jnum 3] st2 =
      ({ st2 with deficient := true }, Except.ok [JSNum.nan]) ∧
    jsOrZero (some JSNum.nan) = jnum 0 :=
  ⟨⟨rfl, rfl, rfl⟩, rfl, rfl⟩

/-- C10.  A token that is neither a parseable number, nor a valid cell
label, nor `"("`, `")"`, nor an operator is silently skipped: the scan step
leaves state and stacks unchanged, a formula consisting of one such token
evaluates with error `""` and result `0`, and `["3","foo","4"]` evaluates
with error `""` and result `4`. -/
theorem unrecognized_token_skipped (mem : SheetMemory) (st : EvalState)
    (token : String) (rest : List String) (vs : List JSNum) (ops : List String)
    (st2 : EvalState)
    (h1 : isNumber token = false) (h2 : Cell.isValidCellLabel token = false)
    (h3 : token ≠ "(") (h4 : token ≠ ")") (h5 : isOperator token = false) :
    evalLoop mem (token :: rest) vs ops st2 = evalLoop mem rest vs ops st2 ∧
    ((evaluate mem st [token]).errorMessage = "" ∧
      (evaluate mem st [token]).result = jnum 0) ∧
    ((evaluate mem st ["3", "foo", "4"]).errorMessage = "" ∧
      (evaluate mem st ["3", "foo", "4"]).result = jnum 4) := by
  have hskip : ∀ (r : List String) (vs2 : List JSNum) (ops2 : List String)
      (stx : EvalState), evalLoop mem (token :: r) vs2 ops2 stx = evalLoop mem r vs2 ops2 stx := by
    intro r vs2 ops2 stx
    rw [evalLoop, if_neg (by simp [h1]), if_neg (by simp [isCellReference, h2]),
      if_neg h3, if_neg h4, if_neg (by simp [h5])]
  have htrail : trailingOperatorCheck [token] = false := by
    show (isOperator token && token != ")") = false
    rw [h5]
    rfl
  have hpre : preState st [token] = startState st := by
    rw [preState, if_neg (by simp [htrail])]
  have hlast : lastIsOperator [token] = false := by
    show isOperator token = false
    exact h5
  have hexp : evaluateExpression mem [token] (preState st [token]) =
      (preState st [token], Except.ok (jnum 0)) := by
    rw [evaluateExpression, hskip [] [] [] (preState st [token]),
      show evalLoop mem [] [] [] (preState st [token]) =
        (preState st [token], LoopOut.done [] []) from rfl]
    dsimp only
    rw [if_neg (by simp [hlast])]
    rfl
  have hev : evaluate mem st [token] = { startState st with result := jnum 0 } := by
    rw [evaluate, if_neg (by simp), if_neg (by simp [isParenPair]), hexp, hpre]
  refine ⟨hskip rest vs ops st2, ⟨?_, ?_⟩, rfl, rfl⟩
  · rw [hev]
    try rfl
  · rw [hev]
    try rfl

/-- Witness for C10 with the token `"foo"`. -/
theorem unrecognized_token_skipped_witness :
    (isNumber "foo" = false ∧ Cell.isValidCellLabel "foo" = false ∧
      "foo" ≠ "(" ∧ "foo" ≠ ")" ∧ isOperator "foo" = false) ∧
    (evalLoop memZero ["foo"] [] [] stInit = evalLoop memZero [] [] [] stInit ∧
      ((evaluate memZero stInit ["foo"]).errorMessage = "" ∧
        (evaluate memZero stInit ["foo"]).result = jnum 0) ∧
      ((evaluate memZero stInit ["3", "foo", "4"]).errorMessage = "" ∧
        (evaluate memZero stInit ["3", "foo", "4"]).result = jnum 4)) :=
  ⟨⟨rfl, rfl, by decide, by decide, rfl⟩,
    unrecognized_token_skipped memZero stInit "foo" [] [] [] stInit rfl rfl
      (by decide) (by decide) rfl⟩
